import Mathlib

/-!
Verification development for the PreREISE data-gathering scripts.

Two source files are embedded:
* prereise/gather/solardata/NSRDB/naive.py   (naive solar estimator)
* prereise/gather/winddata/te_wind/te_wind.py (wind pipeline)

Floating-point values are modelled as exact rationals where the source
performs only field arithmetic, and as real numbers where the source
uses transcendental functions (sin, cos, asin, sqrt).
-/

/-! ## Solar pipeline: naive.py -/

/-- Maximum of a GHI series, as computed by the pandas max call on the
Pout column of data_loc.  The default 0 models only the empty series,
which the script never normalizes. -/
def seriesMax (l : List ℚ) : ℚ :=
  l.maximum.unbot' 0

/-- The normalization step of naive.py: data_loc = data_loc / data_loc.max().
Every value of the series is divided by the maximum of the series. -/
def normalizeSeries (l : List ℚ) : List ℚ :=
  l.map (fun x => x / seriesMax l)

/-- Rows produced for one plant: the Pout column of data_site tagged with
the plant identifier, carrying the 1-based index of data_loc
(index=range(1, len(ghi)+1)).  A row is (time index, plant id, Pout). -/
def plantRows (plantId : Nat) (pout : List ℚ) : List (Nat × Nat × ℚ) :=
  (pout.enumFrom 1).map (fun p => (p.1, plantId, p.2))

/-- The inner loop of naive.py over the plants of one location.  The
assignment is data_site[Pout] = data_site[Pout]*[i[1]]*len(data_loc):
left-associative, so the column is first multiplied elementwise by the
length-1 list [capacity] (broadcast) and then by the scalar row count
len(data_loc).  Moreover data_site = data_loc aliases the shared frame
and the product is written back into it, so the running column cur is
scaled again by each subsequent capacity and length factor. -/
def processPlants (cur : List ℚ) : List (Nat × ℚ) → List (Nat × Nat × ℚ)
  | [] => []
  | (pid, cap) :: rest =>
    let cur2 := cur.map (fun x => x * cap * (cur.length : ℚ))
    plantRows pid cur2 ++ processPlants cur2 rest

/-- Processing of one location in naive.py: normalize the GHI series by
its own maximum, then run the plant loop over the co-located plants. -/
def processLocation (ghi : List ℚ) (plants : List (Nat × ℚ)) : List (Nat × Nat × ℚ) :=
  processPlants (normalizeSeries ghi) plants

/-- data.sort_index(inplace=True): rows of the accumulated table are
sorted by the 1-based time index. -/
def sortRows (rows : List (Nat × Nat × ℚ)) : List (Nat × Nat × ℚ) :=
  rows.insertionSort (fun a b => a.1 ≤ b.1)

/-- The whole solar accumulation: per-location row blocks are appended in
loop order into the data frame, then sorted by the time index. -/
def naiveSolarOutput (locs : List (List ℚ × List (Nat × ℚ))) : List (Nat × Nat × ℚ) :=
  sortRows ((locs.map (fun lc => processLocation lc.1 lc.2)).flatten)

/-- Output file name: "western_Pout_%d.txt" % (year). -/
def output_name (year : Nat) : String :=
  "western_Pout_" ++ toString year ++ ".txt"

/-- Separator passed to to_csv. -/
def output_sep : String := "\t"

/-- header=None in the to_csv call: no header row is written. -/
def output_header : Bool := false

/-- columns=[id, Pout] in the to_csv call, in that order. -/
def output_columns : List String := ["id", "Pout"]

/-! ## Wind pipeline: te_wind.py -/

/-- haversin(x) = sin(x/2)**2, the helper inside _greatCircleDistance. -/
noncomputable def haversin (x : ℝ) : ℝ :=
  Real.sin (x / 2) ^ 2

/-- Argument of the square root in _greatCircleDistance:
haversin(lat2-lat1) + cos(lat1)*cos(lat2)*haversin(lon2-lon1). -/
noncomputable def haversinArg (lat1 lon1 lat2 lon2 : ℝ) : ℝ :=
  haversin (lat2 - lat1) + Real.cos lat1 * Real.cos lat2 * haversin (lon2 - lon1)

/-- _greatCircleDistance of te_wind.py with R = 6368:
R*2*asin(sqrt(haversin(lat2-lat1) + cos(lat1)*cos(lat2)*haversin(lon2-lon1))). -/
noncomputable def _greatCircleDistance (lat1 lon1 lat2 lon2 : ℝ) : ℝ :=
  6368 * 2 * Real.arcsin (Real.sqrt (haversinArg lat1 lon1 lat2 lon2))

/-- One row of the nrel_sites frame: site_id, lat, lon, capacity. -/
structure NrelSite where
  site_id : Int
  lat : ℝ
  lon : ℝ
  capacity : ℝ

/-- One row of the wind_farm_bus frame: lat and lon of the plant. -/
structure WindFarm where
  lat : ℝ
  lon : ℝ

/-- One row of the closest_NREL_siteID result frame: siteID (astype int),
capacity and dist (astype float). -/
structure SiteMatch where
  siteID : Int
  capacity : ℝ
  dist : ℝ

/-- Distance from one catalog site to the plant, exactly as called in
find_NREL_siteID_closest_to_windfarm:
_greatCircleDistance(row_sites[lat], row_sites[lon], row[1], row[2]),
where row[1], row[2] are the plant latitude and longitude. -/
noncomputable def siteDist (farm : WindFarm) (s : NrelSite) : ℝ :=
  _greatCircleDistance s.lat s.lon farm.lat farm.lon

/-- The dist series of the matcher: one distance per catalog row. -/
noncomputable def siteDists (nrel_sites : List NrelSite) (farm : WindFarm) : List ℝ :=
  nrel_sites.map (siteDist farm)

open scoped Classical in
/-- Selection step of the matcher: dist.min() is recorded as dist, and the
boolean mask dist == dist.min() indexed at values[0] picks the first
catalog row attaining the minimum, yielding siteID and capacity.  On an
empty catalog the mask selects nothing and values[0] raises, modelled by
none. -/
noncomputable def selectClosest (nrel_sites : List NrelSite) (dists : List ℝ) : Option SiteMatch :=
  WithTop.recTopCoe none
    (fun m => ((nrel_sites.zip dists).find? (fun p => decide (p.2 = m))).map
      (fun p => ⟨p.1.site_id, p.1.capacity, m⟩))
    dists.minimum

/-- find_NREL_siteID_closest_to_windfarm for one plant row. -/
noncomputable def find_NREL_siteID_closest_to_windfarm
    (nrel_sites : List NrelSite) (farm : WindFarm) : Option SiteMatch :=
  selectClosest nrel_sites (siteDists nrel_sites farm)

/-- The matcher loop over all plant rows; the first failing row aborts the
whole call, as the raised IndexError would in the script. -/
noncomputable def matchAllFarms
    (nrel_sites : List NrelSite) (farms : List WindFarm) : Option (List SiteMatch) :=
  farms.mapM (find_NREL_siteID_closest_to_windfarm nrel_sites)

/-- The per-site table returned by the NREL server: a power column and a
wind_speed column. -/
structure SiteData where
  power : List ℚ
  wind_speed : List ℚ
deriving DecidableEq

/-- Division of the whole returned frame by the site capacity, as in
get_nc_data_from_url(...)/capacity_i: every column is divided. -/
def divSiteData (d : SiteData) (c : ℚ) : SiteData :=
  ⟨d.power.map (fun x => x / c), d.wind_speed.map (fun x => x / c)⟩

/-- Month label built in get_data_from_NREL_server: str(y) + "-0" + str(m)
when m < 10, else str(y) + "-" + str(m). -/
def monthLabel (y m : Nat) : String :=
  if m < 10 then toString y ++ "-0" ++ toString m else toString y ++ "-" ++ toString m

/-- siteIDs.drop_duplicates(subset=siteID): keeps the first row for each
site identifier, in order. -/
def dropDupSites : List (Int × ℚ) → List (Int × ℚ)
  | [] => []
  | x :: xs => x :: (dropDupSites xs).filter (fun y => y.1 != x.1)

/-- get_data_from_NREL_server: for each (year, month) of the range and
each de-duplicated site, fetch the site table from the provider and
divide it by the site capacity; results are keyed by month label and
site id.  The network call is the boundary dependency, passed in as
provider. -/
def get_data_from_NREL_server (provider : String → Int → SiteData)
    (siteIDs : List (Int × ℚ)) (yearMonths : List (Nat × Nat)) :
    List (String × List (Int × SiteData)) :=
  yearMonths.map (fun ym =>
    (monthLabel ym.1 ym.2,
     (dropDupSites siteIDs).map (fun s =>
       (s.1, divSiteData (provider (monthLabel ym.1 ym.2) s.1) s.2))))

/-- A timestamp of the requested date range: its month label and a key
distinguishing it inside the month. -/
structure Timestamp where
  month : String
  slot : Nat
deriving DecidableEq, BEq

/-- Lookup of one month entry of the nested dictionary. -/
def lookupMonth (data : List (String × List (Int × SiteData))) (m : String) :
    Option (List (Int × SiteData)) :=
  (data.find? (fun p => p.1 == m)).map Prod.snd

/-- Lookup of one site entry inside a month. -/
def lookupSite (entries : List (Int × SiteData)) (s : Int) : Option SiteData :=
  (entries.find? (fun q => q.1 == s)).map Prod.snd

/-- Position of a timestamp among the rows of its month: the loc[month]
slice pairs the k-th row of the month with the k-th fetched value. -/
def monthPos (data_range : List Timestamp) (t : Timestamp) : Nat :=
  (data_range.filter (fun u => u.month == t.month)).indexOf t

/-- Value of one cell of a reshaped frame: present only when the month and
the site occur in the fetched dictionary and the month slice has a row
for this timestamp; NaN cells are modelled by none. -/
def cellValue (data : List (String × List (Int × SiteData)))
    (data_range : List Timestamp) (attr : SiteData → List ℚ)
    (t : Timestamp) (s : Int) : Option ℚ :=
  (lookupMonth data t.month).bind (fun entries =>
    (lookupSite entries s).bind (fun sd => (attr sd).get? (monthPos data_range t)))

/-- closest_NREL_siteID[siteID].drop_duplicates(): first occurrence of
each site identifier is kept, in order. -/
def dedupSiteIDs : List Int → List Int
  | [] => []
  | x :: xs => x :: (dedupSiteIDs xs).filter (fun y => y != x)

/-- One of the two wide frames built by dict_to_DataFrame: row index,
column labels, and the cell contents. -/
structure WindTable where
  index : List Timestamp
  cols : List Int
  cell : Timestamp → Int → Option ℚ

/-- dict_to_DataFrame: both frames are created with index=data_range and
columns=closest_NREL_siteID[siteID].drop_duplicates(), then filled
month by month and site by site from the dictionary. -/
def dict_to_DataFrame (data : List (String × List (Int × SiteData)))
    (data_range : List Timestamp) (closest : List SiteMatch) : WindTable × WindTable :=
  (⟨data_range, dedupSiteIDs (closest.map SiteMatch.siteID),
    cellValue data data_range SiteData.power⟩,
   ⟨data_range, dedupSiteIDs (closest.map SiteMatch.siteID),
    cellValue data data_range SiteData.wind_speed⟩)

/-- Mean of one resampling bucket. -/
def listMean (l : List ℚ) : ℚ :=
  l.sum / l.length

/-- Consecutive buckets of n+1 samples (the last bucket may be shorter),
modelling the grouping of the 5-minute rows into clock hours. -/
def chunksSucc (n : Nat) : List ℚ → List (List ℚ)
  | [] => []
  | x :: xs => (x :: xs.take n) :: chunksSucc n (xs.drop n)
termination_by l => l.length
decreasing_by simp [List.length_drop]; omega

/-- resample(H).mean() on a 5-minute series: buckets of 12 samples are
replaced by their arithmetic mean. -/
def resampleHourlyMean (l : List ℚ) : List ℚ :=
  (chunksSucc 11 l).map listMean

/-- scale_power_to_plant_capacity: for each plant of wind_farm_bus, take
the normalized power column of its matched site, multiply it by the
plant GenMWMax, and resample the plant column to hourly means. -/
def scale_power_to_plant_capacity (NREL_power : Int → List ℚ)
    (wind_farm_bus : List (Nat × ℚ)) (closest : Nat → Int) : List (Nat × List ℚ) :=
  wind_farm_bus.map (fun p =>
    (p.1, resampleHourlyMean ((NREL_power (closest p.1)).map (fun x => x * p.2))))

/-! ## Lemmas about the great-circle distance -/

/-- The haversine helper in closed cosine form. -/
lemma haversin_eq (x : ℝ) : haversin x = 1 / 2 - Real.cos x / 2 := by
  unfold haversin
  have h := Real.sin_sq_eq_half_sub (x / 2)
  have h2 : 2 * (x / 2) = x := by ring
  rw [h2] at h
  exact h

lemma haversin_nonneg (x : ℝ) : 0 ≤ haversin x := by
  unfold haversin
  positivity

lemma haversin_le_one (x : ℝ) : haversin x ≤ 1 := by
  rw [haversin_eq]
  have := Real.neg_one_le_cos x
  linarith

lemma haversin_neg (x : ℝ) : haversin (-x) = haversin x := by
  rw [haversin_eq, haversin_eq, Real.cos_neg]

/-- Product-to-sum identity specialized to the haversine argument. -/
lemma haversin_add_cos_mul_cos (a c : ℝ) :
    haversin (c - a) + Real.cos a * Real.cos c = Real.cos ((a + c) / 2) ^ 2 := by
  rw [haversin_eq]
  have h := Real.cos_sq ((a + c) / 2)
  have h2 : 2 * ((a + c) / 2) = a + c := by ring
  rw [h2] at h
  rw [h, Real.cos_sub, Real.cos_add]
  ring

/-- The argument of the square root always lies in [0, 1], whatever the
latitudes are. -/
lemma haversinArg_mem (a b c d : ℝ) :
    0 ≤ haversinArg a b c d ∧ haversinArg a b c d ≤ 1 := by
  unfold haversinArg
  have h1 := haversin_nonneg (c - a)
  have h2 := haversin_le_one (c - a)
  have h3 := haversin_nonneg (d - b)
  have h4 := haversin_le_one (d - b)
  have hk := haversin_add_cos_mul_cos a c
  have hC0 : 0 ≤ Real.cos ((a + c) / 2) ^ 2 := sq_nonneg _
  have hC1 : Real.cos ((a + c) / 2) ^ 2 ≤ 1 := by
    have := Real.neg_one_le_cos ((a + c) / 2)
    have := Real.cos_le_one ((a + c) / 2)
    nlinarith
  constructor
  · nlinarith [mul_nonneg h1 (sub_nonneg.mpr h4), mul_nonneg hC0 h3]
  · nlinarith [mul_nonneg (sub_nonneg.mpr h2) (sub_nonneg.mpr h4),
      mul_nonneg h3 (sub_nonneg.mpr hC1)]

/-- The distance is always defined and lies in [0, pi * 6368]. -/
lemma greatCircleDistance_bounds (a b c d : ℝ) :
    0 ≤ _greatCircleDistance a b c d ∧ _greatCircleDistance a b c d ≤ Real.pi * 6368 := by
  obtain ⟨h0, h1⟩ := haversinArg_mem a b c d
  unfold _greatCircleDistance
  have hs0 : 0 ≤ Real.sqrt (haversinArg a b c d) := Real.sqrt_nonneg _
  have ha0 : 0 ≤ Real.arcsin (Real.sqrt (haversinArg a b c d)) :=
    Real.arcsin_nonneg.mpr hs0
  have ha1 : Real.arcsin (Real.sqrt (haversinArg a b c d)) ≤ Real.pi / 2 :=
    Real.arcsin_le_pi_div_two _
  constructor
  · nlinarith
  · nlinarith

/-! ## Lemmas about the nearest-site matcher -/

lemma zip_map_self {α β : Type} (f : α → β) :
    ∀ l : List α, l.zip (l.map f) = l.map (fun a => (a, f a))
  | [] => rfl
  | x :: xs => by simp [List.zip_cons_cons, zip_map_self f xs]

/-- find? over a mapped list returns the image of the first element whose
image satisfies the predicate, and everything before it fails it. -/
lemma find?_map_split {α β : Type} (g : α → β) (q : β → Bool) :
    ∀ (l : List α) (p : β), (l.map g).find? q = some p →
      ∃ pre post s, l = pre ++ s :: post ∧ g s = p ∧ q (g s) = true ∧
        ∀ t ∈ pre, q (g t) = false := by
  intro l
  induction l with
  | nil => intro p hp; simp at hp
  | cons x xs ih =>
    intro p hp
    by_cases hqx : q (g x) = true
    · refine ⟨[], xs, x, by simp, ?_, hqx, by simp⟩
      simp [List.find?_cons_of_pos _ hqx] at hp
      exact hp
    · have hqx' : q (g x) = false := by
        cases hq : q (g x)
        · rfl
        · exact absurd hq hqx
      rw [List.map_cons, List.find?_cons_of_neg _ (by simp [hqx'])] at hp
      obtain ⟨pre, post, s, hsplit, hgs, hqs, hpre⟩ := ih p hp
      refine ⟨x :: pre, post, s, by simp [hsplit], hgs, hqs, ?_⟩
      intro t ht
      rcases List.mem_cons.mp ht with h | h
      · rw [h]; exact hqx'
      · exact hpre t h

lemma find?_is_some {α : Type} (q : α → Bool) :
    ∀ (l : List α) (x : α), x ∈ l → q x = true → ∃ a, l.find? q = some a := by
  intro l
  induction l with
  | nil => intro x hx; simp at hx
  | cons y ys ih =>
    intro x hx hq
    by_cases hqy : q y = true
    · exact ⟨y, List.find?_cons_of_pos _ hqy⟩
    · have hqy' : q y = false := by
        cases h : q y
        · rfl
        · exact absurd h hqy
      rcases List.mem_cons.mp hx with h | h
      · subst h; rw [hq] at hqy'; cases hqy'
      · obtain ⟨a, ha⟩ := ih x h hq
        exact ⟨a, by rw [List.find?_cons_of_neg _ (by simp [hqy']), ha]⟩

open scoped Classical in
/-- Full behaviour of the matcher on a nonempty catalog: it returns the
first catalog row attaining the minimal distance to the plant, and
records that minimal distance and the capacity of the matched row. -/
lemma selectClosest_spec (nrel_sites : List NrelSite) (farm : WindFarm)
    (h : nrel_sites ≠ []) :
    ∃ (m : ℝ) (pre post : List NrelSite) (s : NrelSite),
      nrel_sites = pre ++ s :: post ∧
      find_NREL_siteID_closest_to_windfarm nrel_sites farm =
        some ⟨s.site_id, s.capacity, m⟩ ∧
      siteDist farm s = m ∧
      (∀ t ∈ nrel_sites, m ≤ siteDist farm t) ∧
      (∀ t ∈ pre, siteDist farm t ≠ m) := by
  have hne : nrel_sites.map (siteDist farm) ≠ [] := by
    simpa using h
  have hmin : (nrel_sites.map (siteDist farm)).minimum ≠ ⊤ := by
    rw [Ne, List.minimum_eq_top]
    exact hne
  obtain ⟨m, hm⟩ := WithTop.ne_top_iff_exists.mp hmin
  have hmem : m ∈ nrel_sites.map (siteDist farm) := List.minimum_mem hm.symm
  have hle : ∀ t ∈ nrel_sites, m ≤ siteDist farm t := by
    intro t ht
    have h1 : ((nrel_sites.map (siteDist farm)).minimum : WithTop ℝ) ≤
        (siteDist farm t : WithTop ℝ) :=
      List.minimum_le_of_mem' (List.mem_map_of_mem _ ht)
    rw [← hm] at h1
    exact_mod_cast h1
  obtain ⟨s₀, hs₀, hds₀⟩ := List.mem_map.mp hmem
  have hzip : nrel_sites.zip (nrel_sites.map (siteDist farm)) =
      nrel_sites.map (fun a => (a, siteDist farm a)) := zip_map_self _ _
  obtain ⟨p, hp⟩ := find?_is_some (fun p : NrelSite × ℝ => decide (p.2 = m))
    (nrel_sites.map (fun a => (a, siteDist farm a))) (s₀, siteDist farm s₀)
    (List.mem_map_of_mem _ hs₀) (by simp [hds₀])
  obtain ⟨pre, post, s, hsplit, hgs, hqs, hpre⟩ :=
    find?_map_split (fun a => (a, siteDist farm a)) _ _ _ hp
  have hdsm : siteDist farm s = m := by
    have := of_decide_eq_true hqs
    simpa using this
  refine ⟨m, pre, post, s, hsplit, ?_, hdsm, hle, ?_⟩
  · unfold find_NREL_siteID_closest_to_windfarm selectClosest siteDists
    rw [← hm, WithTop.recTopCoe_coe, hzip, hp, ← hgs]
    simp
  · intro t ht
    have := hpre t ht
    intro hcon
    simp [hcon] at this

/-! ## Lemmas about the reshaper and the scaler -/

lemma mem_dedupSiteIDs (a : Int) : ∀ l : List Int, a ∈ dedupSiteIDs l ↔ a ∈ l := by
  intro l
  induction l with
  | nil => simp [dedupSiteIDs]
  | cons x xs ih =>
    simp only [dedupSiteIDs, List.mem_cons, List.mem_filter, ih, bne_iff_ne]
    constructor
    · rintro (h | ⟨h, _⟩)
      · exact Or.inl h
      · exact Or.inr h
    · rintro (h | h)
      · exact Or.inl h
      · by_cases hax : a = x
        · exact Or.inl hax
        · exact Or.inr ⟨h, by simpa using hax⟩

lemma dedupSiteIDs_nodup : ∀ l : List Int, (dedupSiteIDs l).Nodup := by
  intro l
  induction l with
  | nil => simp [dedupSiteIDs]
  | cons x xs ih =>
    simp only [dedupSiteIDs]
    refine List.Nodup.cons ?_ (List.Nodup.filter _ ih)
    intro hx
    have := (List.mem_filter.mp hx).2
    simp at this

lemma listMean_two_mul (l : List ℚ) :
    listMean (l.map (fun x => 2 * x)) = 2 * listMean l := by
  unfold listMean
  rw [List.length_map]
  have hsum : (l.map (fun x => 2 * x)).sum = 2 * l.sum := by
    induction l with
    | nil => simp
    | cons y ys ih => simp [ih]; ring
  rw [hsum]
  ring

lemma chunksSucc_map_two_aux (n : Nat) :
    ∀ (k : Nat) (l : List ℚ), l.length ≤ k →
      chunksSucc n (l.map (fun x => 2 * x)) =
        (chunksSucc n l).map (List.map (fun x => 2 * x)) := by
  intro k
  induction k with
  | zero =>
    intro l hl
    have : l = [] := List.eq_nil_of_length_eq_zero (Nat.le_zero.mp hl)
    subst this
    simp [chunksSucc]
  | succ k ih =>
    intro l hl
    cases l with
    | nil => simp [chunksSucc]
    | cons x xs =>
      rw [List.map_cons, chunksSucc, chunksSucc]
      rw [← List.map_take, ← List.map_drop]
      rw [ih (xs.drop n) (by simp only [List.length_cons] at hl; simp [List.length_drop]; omega)]
      simp

lemma chunksSucc_map_two (n : Nat) (l : List ℚ) :
    chunksSucc n (l.map (fun x => 2 * x)) =
      (chunksSucc n l).map (List.map (fun x => 2 * x)) :=
  chunksSucc_map_two_aux n l.length l le_rfl

lemma resampleHourlyMean_two_mul (l : List ℚ) :
    resampleHourlyMean (l.map (fun x => 2 * x)) =
      (resampleHourlyMean l).map (fun x => 2 * x) := by
  unfold resampleHourlyMean
  rw [chunksSucc_map_two, List.map_map, List.map_map]
  congr 1
  funext c
  simp only [Function.comp_apply]
  exact listMean_two_mul c

lemma haversinArg_symm (a b c d : ℝ) : haversinArg a b c d = haversinArg c d a b := by
  unfold haversinArg
  rw [show a - c = -(c - a) by ring, haversin_neg,
      show b - d = -(d - b) by ring, haversin_neg, mul_comm (Real.cos a)]

lemma haversinArg_self (lat lon : ℝ) : haversinArg lat lon lat lon = 0 := by
  unfold haversinArg haversin
  simp

lemma haversinArg_quarter : haversinArg 0 0 0 (Real.pi / 2) = Real.sin (Real.pi / 4) ^ 2 := by
  unfold haversinArg haversin
  simp
  rw [show Real.pi / 2 / 2 = Real.pi / 4 by ring, Real.sin_pi_div_four]

/-- C4: _greatCircleDistance equals the haversine formula with R = 6368;
the distance of a point to itself is 0; the function is symmetric; the
distance from (0, 0) to (0, pi/2) equals R*pi/2 exactly, hence within
0.1 km. -/
theorem greatCircleDistance_correct :
    (∀ lat1 lon1 lat2 lon2 : ℝ,
      _greatCircleDistance lat1 lon1 lat2 lon2 =
        2 * 6368 * Real.arcsin (Real.sqrt (Real.sin ((lat2 - lat1) / 2) ^ 2 +
          Real.cos lat1 * Real.cos lat2 * Real.sin ((lon2 - lon1) / 2) ^ 2))) ∧
    (∀ lat lon : ℝ, _greatCircleDistance lat lon lat lon = 0) ∧
    (∀ a b c d : ℝ, _greatCircleDistance a b c d = _greatCircleDistance c d a b) ∧
    _greatCircleDistance 0 0 0 (Real.pi / 2) = 6368 * (Real.pi / 2) ∧
    |_greatCircleDistance 0 0 0 (Real.pi / 2) - 6368 * (Real.pi / 2)| ≤ 0.1 := by
  have hquarter : _greatCircleDistance 0 0 0 (Real.pi / 2) = 6368 * (Real.pi / 2) := by
    unfold _greatCircleDistance
    rw [haversinArg_quarter]
    have hpi := Real.pi_pos
    have hsin : 0 ≤ Real.sin (Real.pi / 4) :=
      Real.sin_nonneg_of_nonneg_of_le_pi (by linarith) (by linarith)
    rw [Real.sqrt_sq hsin, Real.arcsin_sin (by linarith) (by linarith)]
    ring
  refine ⟨?_, ?_, ?_, hquarter, ?_⟩
  · intro lat1 lon1 lat2 lon2
    unfold _greatCircleDistance haversinArg haversin
    ring_nf
  · intro lat lon
    unfold _greatCircleDistance
    rw [haversinArg_self]
    simp
  · intro a b c d
    unfold _greatCircleDistance
    rw [haversinArg_symm]
  · rw [hquarter]
    simp
    norm_num

/-- C10 (amended): _greatCircleDistance is total on the reals.  For every
input, also with latitudes outside [-pi/2, pi/2] as on the degree-valued
matcher call path, the argument of sqrt lies in [0, 1] and the result
lies in [0, pi * 6368]; no domain error can arise in exact arithmetic. -/
theorem greatCircleDistance_total (lat1 lon1 lat2 lon2 : ℝ) :
    (0 ≤ haversinArg lat1 lon1 lat2 lon2 ∧ haversinArg lat1 lon1 lat2 lon2 ≤ 1) ∧
    (0 ≤ _greatCircleDistance lat1 lon1 lat2 lon2 ∧
      _greatCircleDistance lat1 lon1 lat2 lon2 ≤ Real.pi * 6368) :=
  ⟨haversinArg_mem lat1 lon1 lat2 lon2, greatCircleDistance_bounds lat1 lon1 lat2 lon2⟩

/-- C10 counterexample: at (lat1, lon1, lat2, lon2) = (2, 0, 0, pi) the
latitude 2 lies outside [-pi/2, pi/2] and cos(lat1)*cos(lat2) is
negative, yet the argument of sqrt still lies in [0, 1] and the call
returns a distance in [0, pi * 6368] instead of leaving the domain. -/
theorem greatCircleDistance_no_domain_error :
    Real.cos 2 * Real.cos 0 < 0 ∧
    ¬ (2:ℝ) ∈ Set.Icc (-(Real.pi / 2)) (Real.pi / 2) ∧
    0 ≤ haversinArg 2 0 0 Real.pi ∧ haversinArg 2 0 0 Real.pi ≤ 1 ∧
    0 ≤ _greatCircleDistance 2 0 0 Real.pi ∧
    _greatCircleDistance 2 0 0 Real.pi ≤ Real.pi * 6368 := by
  have h3 := Real.pi_gt_three
  have h4 := Real.pi_lt_four
  have hcos : Real.cos 2 < 0 :=
    Real.cos_neg_of_pi_div_two_lt_of_lt (by linarith) (by linarith)
  refine ⟨by rw [Real.cos_zero]; linarith, ?_, (haversinArg_mem 2 0 0 Real.pi).1,
    (haversinArg_mem 2 0 0 Real.pi).2, (greatCircleDistance_bounds 2 0 0 Real.pi).1,
    (greatCircleDistance_bounds 2 0 0 Real.pi).2⟩
  intro hmem
  have := hmem.2
  linarith

lemma minimum_5_50_500 : ([(5:ℝ), 50, 500]).minimum = ((5:ℝ) : WithTop ℝ) := by
  rw [List.minimum_cons, List.minimum_cons, List.minimum_cons, List.minimum_nil]
  rw [min_eq_left (le_top : ((500:ℝ) : WithTop ℝ) ≤ ⊤)]
  rw [← WithTop.coe_min, ← WithTop.coe_min]
  norm_num [min_def]

/-- On a catalog of three sites whose distance series is [5, 50, 500],
the selection step returns the first site with recorded distance 5. -/
lemma selectClosest_concrete (s1 s2 s3 : NrelSite) :
    selectClosest [s1, s2, s3] [5, 50, 500] = some ⟨s1.site_id, s1.capacity, 5⟩ := by
  unfold selectClosest
  rw [minimum_5_50_500, WithTop.recTopCoe_coe]
  rw [show ([s1, s2, s3].zip [(5:ℝ), 50, 500]) = [(s1, (5:ℝ)), (s2, 50), (s3, 500)] from rfl]
  rw [List.find?_cons_of_pos _ (by simp)]
  simp

/-- C3: on every nonempty catalog the matcher returns exactly one match:
the first catalog row attaining the minimal great-circle distance, with
that distance and the capacity of the row recorded; and on a catalog of
three sites at distances 5, 50 and 500 km the 5 km site is selected with
distance 5 recorded. -/
theorem matcher_selects_nearest (nrel_sites : List NrelSite) (farm : WindFarm)
    (h : nrel_sites ≠ []) :
    (∃ (m : ℝ) (pre post : List NrelSite) (s : NrelSite),
      nrel_sites = pre ++ s :: post ∧
      find_NREL_siteID_closest_to_windfarm nrel_sites farm =
        some ⟨s.site_id, s.capacity, m⟩ ∧
      siteDist farm s = m ∧
      (∀ t ∈ nrel_sites, m ≤ siteDist farm t) ∧
      (∀ t ∈ pre, siteDist farm t ≠ m)) ∧
    (∀ s1 s2 s3 : NrelSite,
      selectClosest [s1, s2, s3] [5, 50, 500] = some ⟨s1.site_id, s1.capacity, 5⟩) :=
  ⟨selectClosest_spec nrel_sites farm h, fun s1 s2 s3 => selectClosest_concrete s1 s2 s3⟩

/-- Witness for the matcher theorem at a concrete one-site catalog. -/
theorem matcher_selects_nearest_witness :
    ([(⟨1, 0, 0, 10⟩ : NrelSite)] ≠ [] ∧
      ((∃ (m : ℝ) (pre post : List NrelSite) (s : NrelSite),
        [(⟨1, 0, 0, 10⟩ : NrelSite)] = pre ++ s :: post ∧
        find_NREL_siteID_closest_to_windfarm [⟨1, 0, 0, 10⟩] ⟨0, 0⟩ =
          some ⟨s.site_id, s.capacity, m⟩ ∧
        siteDist ⟨0, 0⟩ s = m ∧
        (∀ t ∈ [(⟨1, 0, 0, 10⟩ : NrelSite)], m ≤ siteDist ⟨0, 0⟩ t) ∧
        (∀ t ∈ pre, siteDist ⟨0, 0⟩ t ≠ m)) ∧
      (∀ s1 s2 s3 : NrelSite,
        selectClosest [s1, s2, s3] [5, 50, 500] = some ⟨s1.site_id, s1.capacity, 5⟩))) :=
  ⟨by simp, matcher_selects_nearest [⟨1, 0, 0, 10⟩] ⟨0, 0⟩ (by simp)⟩

/-- C6: on an empty catalog the matcher fails for any nonempty plant set
(no match table is produced), and a nonempty catalog is the only error
condition: every plant is matched whenever the catalog is nonempty. -/
theorem matcher_empty_catalog_fails (farms : List WindFarm) (h : farms ≠ []) :
    matchAllFarms [] farms = none ∧
    ∀ (nrel_sites : List NrelSite) (farm : WindFarm), nrel_sites ≠ [] →
      ∃ sm, find_NREL_siteID_closest_to_windfarm nrel_sites farm = some sm := by
  constructor
  · cases farms with
    | nil => exact absurd rfl h
    | cons f fs =>
      have hf : find_NREL_siteID_closest_to_windfarm [] f = none := by
        unfold find_NREL_siteID_closest_to_windfarm selectClosest siteDists
        rw [List.map_nil, List.minimum_nil, WithTop.recTopCoe_top]
      unfold matchAllFarms
      simp only [List.mapM_cons, hf]
      rfl
  · intro sites farm hne
    obtain ⟨m, pre, post, s, _, heq, _, _, _⟩ := selectClosest_spec sites farm hne
    exact ⟨_, heq⟩

/-- Witness for the empty-catalog theorem at one concrete plant. -/
theorem matcher_empty_catalog_fails_witness :
    ([(⟨0, 0⟩ : WindFarm)] ≠ []) ∧
    (matchAllFarms [] [⟨0, 0⟩] = none ∧
     ∀ (nrel_sites : List NrelSite) (farm : WindFarm), nrel_sites ≠ [] →
       ∃ sm, find_NREL_siteID_closest_to_windfarm nrel_sites farm = some sm) :=
  ⟨by simp, matcher_empty_catalog_fails [⟨0, 0⟩] (by simp)⟩

/-! ## Lemmas about the solar normalization -/

lemma seriesMax_mem (l : List ℚ) (h : l ≠ []) : seriesMax l ∈ l := by
  unfold seriesMax
  have hne : l.maximum ≠ ⊥ := by rw [Ne, List.maximum_eq_bot]; exact h
  obtain ⟨M, hM⟩ := WithBot.ne_bot_iff_exists.mp hne
  rw [← hM, WithBot.unbot'_coe]
  exact List.maximum_mem hM.symm

lemma le_seriesMax (l : List ℚ) (h : l ≠ []) : ∀ x ∈ l, x ≤ seriesMax l := by
  intro x hx
  unfold seriesMax
  have hne : l.maximum ≠ ⊥ := by rw [Ne, List.maximum_eq_bot]; exact h
  obtain ⟨M, hM⟩ := WithBot.ne_bot_iff_exists.mp hne
  have hle : (x : WithBot ℚ) ≤ l.maximum := List.le_maximum_of_mem' hx
  rw [← hM] at hle
  rw [← hM, WithBot.unbot'_coe]
  exact_mod_cast hle

/-- C5: for a nonnegative GHI series with at least one nonzero value,
every normalized value lies in [0, 1] and the position of the series
maximum is normalized to exactly 1. -/
theorem solar_normalization_bound (ghi : List ℚ)
    (hpos : ∀ x ∈ ghi, 0 ≤ x) (hnz : ∃ x ∈ ghi, x ≠ 0) :
    (∀ y ∈ normalizeSeries ghi, 0 ≤ y ∧ y ≤ 1) ∧
    (∃ i : Nat, ghi[i]? = some (seriesMax ghi) ∧
      (normalizeSeries ghi)[i]? = some 1) := by
  obtain ⟨x0, hx0, hx0nz⟩ := hnz
  have hne : ghi ≠ [] := by
    intro hcon
    subst hcon
    simp at hx0
  have hmax_mem := seriesMax_mem ghi hne
  have hle := le_seriesMax ghi hne
  have hMpos : 0 < seriesMax ghi := by
    have h1 : 0 ≤ x0 := hpos x0 hx0
    have h2 : x0 ≤ seriesMax ghi := hle x0 hx0
    have h3 : 0 < x0 := lt_of_le_of_ne h1 (Ne.symm hx0nz)
    linarith
  constructor
  · intro y hy
    obtain ⟨x, hx, rfl⟩ := List.mem_map.mp hy
    refine ⟨div_nonneg (hpos x hx) (le_of_lt hMpos), ?_⟩
    rw [div_le_one hMpos]
    exact hle x hx
  · obtain ⟨i, hi⟩ := List.mem_iff_getElem?.mp hmax_mem
    refine ⟨i, hi, ?_⟩
    unfold normalizeSeries
    rw [List.getElem?_map, hi]
    simp [div_self (ne_of_gt hMpos)]

/-- Witness for the normalization theorem at the series [0, 50, 100]. -/
theorem solar_normalization_bound_witness :
    ((∀ x ∈ [(0:ℚ), 50, 100], 0 ≤ x) ∧ (∃ x ∈ [(0:ℚ), 50, 100], x ≠ 0)) ∧
    ((∀ y ∈ normalizeSeries [0, 50, 100], 0 ≤ y ∧ y ≤ 1) ∧
     (∃ i : Nat, [(0:ℚ), 50, 100][i]? = some (seriesMax [0, 50, 100]) ∧
       (normalizeSeries [0, 50, 100])[i]? = some 1)) :=
  ⟨⟨by decide, by decide⟩,
   solar_normalization_bound [0, 50, 100] (by decide) (by decide)⟩

/-- C1: evaluation of the solar script on two plants of capacities 10 and
20 MW sharing one location with GHI series [0, 50, 100].  The location
series normalizes to [0, 1/2, 1], but each plant column is multiplied
by its capacity AND by the series length 3, and the shared frame is
mutated in place, so the 10 MW plant gets [0, 15, 30] instead of the
documented [0, 5, 10] and the 20 MW plant gets [0, 900, 1800] instead
of [0, 10, 20]; the frame still holds 6 rows. -/
theorem solar_colocated_scaling_bug :
    normalizeSeries [0, 50, 100] = [0, 1/2, 1] ∧
    processLocation [0, 50, 100] [(1, 10), (2, 20)] =
      [(1, 1, 0), (2, 1, 15), (3, 1, 30), (1, 2, 0), (2, 2, 900), (3, 2, 1800)] ∧
    processLocation [0, 50, 100] [(1, 10), (2, 20)] ≠
      [(1, 1, 0), (2, 1, 5), (3, 1, 10), (1, 2, 0), (2, 2, 10), (3, 2, 20)] ∧
    (naiveSolarOutput [([0, 50, 100], [(1, 10), (2, 20)])]).length = 6 := by
  have hmax : seriesMax [0, 50, 100] = 100 := by decide
  have hnorm : normalizeSeries [0, 50, 100] = [0, 1/2, 1] := by
    unfold normalizeSeries
    rw [hmax]
    simp [List.map_cons]
    norm_num
  have hproc : processLocation [0, 50, 100] [(1, 10), (2, 20)] =
      [(1, 1, 0), (2, 1, 15), (3, 1, 30), (1, 2, 0), (2, 2, 900), (3, 2, 1800)] := by
    unfold processLocation
    rw [hnorm]
    simp [processPlants, plantRows, List.enumFrom, List.map_cons]
    norm_num
  refine ⟨hnorm, hproc, ?_, ?_⟩
  · rw [hproc]
    decide
  · unfold naiveSolarOutput sortRows
    rw [List.length_insertionSort]
    simp [hproc]

/-- C9: the accumulated solar table is a permutation of all per-location
row blocks, its rows are sorted by the 1-based time index after
sort_index, and the artifact parameters are the tab separator, no
header, columns (id, Pout), and the name western_Pout_2016.txt for the
study year 2016. -/
theorem solar_output_sorted (locs : List (List ℚ × List (Nat × ℚ))) :
    (naiveSolarOutput locs).Pairwise (fun a b => a.1 ≤ b.1) ∧
    List.Perm (naiveSolarOutput locs)
      ((locs.map (fun lc => processLocation lc.1 lc.2)).flatten) ∧
    output_name 2016 = "western_Pout_2016.txt" ∧
    output_sep = "\t" ∧ output_header = false ∧ output_columns = ["id", "Pout"] := by
  refine ⟨?_, ?_, rfl, rfl, rfl, rfl⟩
  · unfold naiveSolarOutput sortRows
    haveI : IsTotal (Nat × Nat × ℚ) (fun a b => a.1 ≤ b.1) :=
      ⟨fun a b => Nat.le_total a.1 b.1⟩
    haveI : IsTrans (Nat × Nat × ℚ) (fun a b => a.1 ≤ b.1) :=
      ⟨fun a b c h1 h2 => le_trans h1 h2⟩
    exact List.sorted_insertionSort _ _
  · unfold naiveSolarOutput sortRows
    exact List.perm_insertionSort _ _

/-- C8: with the normalized power table and the plant-site match fixed,
doubling the GenMWMax of one plant exactly doubles every value of that
plant column of the hourly output, and leaves every other column
unchanged. -/
theorem scaler_linearity (NREL_power : Int → List ℚ) (closest : Nat → Int)
    (bus : List (Nat × ℚ)) (pid : Nat) :
    scale_power_to_plant_capacity NREL_power
        (bus.map (fun q => if q.1 = pid then (q.1, 2 * q.2) else q)) closest =
      (scale_power_to_plant_capacity NREL_power bus closest).map
        (fun col => if col.1 = pid then (col.1, col.2.map (fun x => 2 * x)) else col) := by
  unfold scale_power_to_plant_capacity
  rw [List.map_map, List.map_map]
  apply List.map_congr_left
  intro q _
  simp only [Function.comp_apply]
  by_cases hqp : q.1 = pid
  · rw [if_pos hqp]
    simp only [if_pos hqp]
    have hmap : (NREL_power (closest q.1)).map (fun x => x * (2 * q.2)) =
        ((NREL_power (closest q.1)).map (fun x => x * q.2)).map (fun x => 2 * x) := by
      rw [List.map_map]
      apply List.map_congr_left
      intro x _
      simp only [Function.comp_apply]
      ring
    rw [hmap, resampleHourlyMean_two_mul]
  · rw [if_neg hqp]
    simp only [if_neg hqp]

/-- C2 (amended): every stored site table is the provider table with BOTH
columns divided by the site capacity; the division is applied to the
whole returned frame, not only to the power field. -/
theorem fetcher_normalizes_all_columns (provider : String → Int → SiteData)
    (siteIDs : List (Int × ℚ)) (yearMonths : List (Nat × Nat))
    (mo : String) (entries : List (Int × SiteData))
    (hmo : (mo, entries) ∈ get_data_from_NREL_server provider siteIDs yearMonths)
    (sid : Int) (sd : SiteData) (hsd : (sid, sd) ∈ entries) :
    ∃ cap : ℚ, (sid, cap) ∈ dropDupSites siteIDs ∧
      sd.power = (provider mo sid).power.map (fun x => x / cap) ∧
      sd.wind_speed = (provider mo sid).wind_speed.map (fun x => x / cap) := by
  unfold get_data_from_NREL_server at hmo
  obtain ⟨ym, _, heq⟩ := List.mem_map.mp hmo
  injection heq with h1 h2
  subst h1
  subst h2
  obtain ⟨s, hs, hgs⟩ := List.mem_map.mp hsd
  injection hgs with g1 g2
  subst g1
  subst g2
  refine ⟨s.2, ?_, rfl, rfl⟩
  rwa [Prod.mk.eta]

/-- Witness for the fetcher theorem at one concrete provider and site. -/
theorem fetcher_normalizes_all_columns_witness :
    (("2016-01", [((7:Int), (⟨[1/2], [4]⟩ : SiteData))]) ∈
        get_data_from_NREL_server (fun _ _ => ⟨[1], [8]⟩) [(7, 2)] [(2016, 1)] ∧
      ((7:Int), (⟨[1/2], [4]⟩ : SiteData)) ∈ [((7:Int), (⟨[1/2], [4]⟩ : SiteData))]) ∧
    (∃ cap : ℚ, ((7:Int), cap) ∈ dropDupSites [(7, 2)] ∧
      (⟨[1/2], [4]⟩ : SiteData).power =
        ((fun _ _ => (⟨[1], [8]⟩ : SiteData)) "2016-01" (7:Int)).power.map
          (fun x => x / cap) ∧
      (⟨[1/2], [4]⟩ : SiteData).wind_speed =
        ((fun _ _ => (⟨[1], [8]⟩ : SiteData)) "2016-01" (7:Int)).wind_speed.map
          (fun x => x / cap)) := by
  have hmem1 : ("2016-01", [((7:Int), (⟨[1/2], [4]⟩ : SiteData))]) ∈
      get_data_from_NREL_server (fun _ _ => ⟨[1], [8]⟩) [(7, 2)] [(2016, 1)] := by
    simp only [get_data_from_NREL_server, dropDupSites, List.filter_nil, List.map_cons,
      List.map_nil, List.mem_singleton, divSiteData]
    refine Prod.ext ?_ ?_
    · rfl
    · simp
      norm_num
  exact ⟨⟨hmem1, by simp⟩,
    fetcher_normalizes_all_columns _ _ _ _ _ hmem1 _ _ (by simp)⟩

/-- C2 counterexample: with a provider returning power [1] and wind_speed
[8] for a site of capacity 2, the stored table is ([1/2], [4]): the
wind_speed column is divided by the capacity as well, so it is not the
provider series unchanged. -/
theorem fetcher_wind_speed_changed :
    get_data_from_NREL_server (fun _ _ => ⟨[1], [8]⟩) [(7, 2)] [(2016, 1)] =
      [("2016-01", [(7, ⟨[1/2], [4]⟩)])] ∧
    (⟨[1/2], [4]⟩ : SiteData).wind_speed ≠
      ((fun _ _ => (⟨[1], [8]⟩ : SiteData)) "2016-01" (7:Int)).wind_speed := by
  constructor
  · simp only [get_data_from_NREL_server, dropDupSites, List.filter_nil, List.map_cons,
      List.map_nil, divSiteData, List.cons.injEq, and_true]
    refine Prod.ext rfl ?_
    simp
    norm_num
  · decide

/-- C7: both reshaped frames share the date range as index and the list of
distinct matched site identifiers as columns (same row count and same
column count), and every cell whose month or site is absent from the
fetched dictionary stays unset. -/
theorem reshaper_shape_invariant (data : List (String × List (Int × SiteData)))
    (data_range : List Timestamp) (closest : List SiteMatch)
    (h1 : data_range ≠ []) (h2 : closest ≠ []) :
    ((dict_to_DataFrame data data_range closest).1.index = data_range ∧
     (dict_to_DataFrame data data_range closest).2.index = data_range ∧
     (dict_to_DataFrame data data_range closest).1.cols =
       (dict_to_DataFrame data data_range closest).2.cols ∧
     (dict_to_DataFrame data data_range closest).1.index.length = data_range.length ∧
     (dict_to_DataFrame data data_range closest).1.cols =
       dedupSiteIDs (closest.map SiteMatch.siteID) ∧
     (dict_to_DataFrame data data_range closest).1.cols.Nodup ∧
     (∀ s : Int, s ∈ (dict_to_DataFrame data data_range closest).1.cols ↔
       s ∈ closest.map SiteMatch.siteID)) ∧
    (∀ t s, lookupMonth data t.month = none →
      (dict_to_DataFrame data data_range closest).1.cell t s = none ∧
      (dict_to_DataFrame data data_range closest).2.cell t s = none) ∧
    (∀ t s entries, lookupMonth data t.month = some entries →
      lookupSite entries s = none →
      (dict_to_DataFrame data data_range closest).1.cell t s = none ∧
      (dict_to_DataFrame data data_range closest).2.cell t s = none) := by
  refine ⟨⟨rfl, rfl, rfl, rfl, rfl, dedupSiteIDs_nodup _,
    fun s => mem_dedupSiteIDs s (closest.map SiteMatch.siteID)⟩, ?_, ?_⟩
  · intro t s hmo
    constructor <;>
      · show cellValue data data_range _ t s = none
        unfold cellValue
        rw [hmo]
        rfl
  · intro t s entries hmo hsi
    constructor <;>
      · show cellValue data data_range _ t s = none
        unfold cellValue
        rw [hmo]
        simp [hsi]

/-- Witness for the reshaper theorem at a one-timestamp, one-match input
with an empty fetched dictionary. -/
theorem reshaper_shape_invariant_witness :
    (([(⟨"2016-01", 0⟩ : Timestamp)] ≠ []) ∧ ([(⟨1, 10, 5⟩ : SiteMatch)] ≠ [])) ∧
    (((dict_to_DataFrame [] [⟨"2016-01", 0⟩] [⟨1, 10, 5⟩]).1.index =
        [(⟨"2016-01", 0⟩ : Timestamp)] ∧
      (dict_to_DataFrame [] [⟨"2016-01", 0⟩] [⟨1, 10, 5⟩]).2.index =
        [(⟨"2016-01", 0⟩ : Timestamp)] ∧
      (dict_to_DataFrame [] [⟨"2016-01", 0⟩] [⟨1, 10, 5⟩]).1.cols =
        (dict_to_DataFrame [] [⟨"2016-01", 0⟩] [⟨1, 10, 5⟩]).2.cols ∧
      (dict_to_DataFrame [] [⟨"2016-01", 0⟩] [⟨1, 10, 5⟩]).1.index.length =
        [(⟨"2016-01", 0⟩ : Timestamp)].length ∧
      (dict_to_DataFrame [] [⟨"2016-01", 0⟩] [⟨1, 10, 5⟩]).1.cols =
        dedupSiteIDs ([(⟨1, 10, 5⟩ : SiteMatch)].map SiteMatch.siteID) ∧
      (dict_to_DataFrame [] [⟨"2016-01", 0⟩] [⟨1, 10, 5⟩]).1.cols.Nodup ∧
      (∀ s : Int, s ∈ (dict_to_DataFrame [] [⟨"2016-01", 0⟩] [⟨1, 10, 5⟩]).1.cols ↔
        s ∈ [(⟨1, 10, 5⟩ : SiteMatch)].map SiteMatch.siteID)) ∧
    (∀ t s, lookupMonth [] t.month = none →
      (dict_to_DataFrame [] [⟨"2016-01", 0⟩] [⟨1, 10, 5⟩]).1.cell t s = none ∧
      (dict_to_DataFrame [] [⟨"2016-01", 0⟩] [⟨1, 10, 5⟩]).2.cell t s = none) ∧
    (∀ t s entries, lookupMonth [] t.month = some entries →
      lookupSite entries s = none →
      (dict_to_DataFrame [] [⟨"2016-01", 0⟩] [⟨1, 10, 5⟩]).1.cell t s = none ∧
      (dict_to_DataFrame [] [⟨"2016-01", 0⟩] [⟨1, 10, 5⟩]).2.cell t s = none)) :=
  ⟨⟨by simp, by simp⟩,
   reshaper_shape_invariant [] [⟨"2016-01", 0⟩] [⟨1, 10, 5⟩] (by simp) (by simp)⟩
